import Mathlib

set_option maxHeartbeats 1000000
set_option synthInstance.maxHeartbeats 1000000
set_option maxRecDepth 8000

/-!
Shallow embedding of the classification-and-merge engine of the
mcp-server-dataset repository (src/daily.py, src/extract_mcp_servers.py,
src/manual-insert.py).

Python dicts are modelled as insertion-ordered association lists, Python
strings as Lean strings or as lists of characters (one element per Unicode
code point, matching Python string indexing; the ASCII fragment of the
Python str methods is modelled), and Python list(set(xs)) as List.dedup
(the iteration order of a Python set is unspecified, so every property
proved about such a list is order-independent).
-/

/-- Lookup of a key in a Python dict modelled as an association list:
the value bound to the first (in a real dict: only) occurrence. -/
def dictLookup {α : Type} : List (String × α) → String → Option α
  | [], _ => none
  | p :: d, k => if p.1 = k then some p.2 else dictLookup d k

/-- Assignment d[k] = v for a key that is already present: the binding is
replaced in place, keeping its position, exactly as a Python dict does. -/
def dictUpdate {α : Type} : List (String × α) → String → α → List (String × α)
  | [], _, _ => []
  | p :: d, k, v => if p.1 = k then (k, v) :: dictUpdate d k v else p :: dictUpdate d k v

theorem dictLookup_update_ne {α : Type} (d : List (String × α)) (k k' : String) (v : α)
    (h : k' ≠ k) : dictLookup (dictUpdate d k v) k' = dictLookup d k' := by
  induction d with
  | nil => rfl
  | cons p d ih =>
    by_cases hp : p.1 = k
    · simp [dictUpdate, dictLookup, hp, Ne.symm h, ih]
    · simp [dictUpdate, dictLookup, hp, ih]

theorem dictLookup_update_eq {α : Type} (d : List (String × α)) (k : String) (v : α)
    (h : (dictLookup d k).isSome) : dictLookup (dictUpdate d k v) k = some v := by
  induction d with
  | nil => simp [dictLookup] at h
  | cons p d ih =>
    by_cases hp : p.1 = k
    · simp [dictUpdate, if_pos hp, dictLookup]
    · simp only [dictLookup, if_neg hp] at h
      simp [dictUpdate, if_neg hp, dictLookup, ih h]

theorem dictLookup_append {α : Type} (d e : List (String × α)) (k : String) :
    dictLookup (d ++ e) k =
      match dictLookup d k with
      | some v => some v
      | none => dictLookup e k := by
  induction d with
  | nil => simp [dictLookup]
  | cons p d ih =>
    by_cases hp : p.1 = k
    · simp [dictLookup, if_pos hp]
    · simp only [List.cons_append, dictLookup, if_neg hp]
      exact ih

/-- Test that the second list of characters occurs at the head of the
first, used to build the Python substring test. -/
def startsWithL : List Char → List Char → Bool
  | _, [] => true
  | [], _ :: _ => false
  | c :: cs, n :: ns => c = n && startsWithL cs ns

/-- Python substring membership, the expression needle in haystack on
strings, over lists of characters. -/
def strContains : List Char → List Char → Bool
  | [], n => n.isEmpty
  | c :: cs, n => startsWithL (c :: cs) n || strContains cs n

/-- Python expression any(word in keywords for word in cands) where
keywords is a list of strings, used throughout assign_category. -/
def kwAny (cands : List String) (ks : List String) : Bool :=
  cands.any (fun w => decide (w ∈ ks))

namespace Daily

/-- Record for one repository, after the fields added by the enrichment
steps, following the RepoData TypedDict of src/daily.py.  The emojis
field (the signal-marker symbol string) is a list of characters; stars
and forks are the non-negative counters of the spec. -/
structure RepoData where
  name : String
  description : String
  html_url : String
  stars : Nat
  forks : Nat
  readme : String
  emojis : List Char
  keywords : List String
  category : String
  techstack : List String
deriving DecidableEq

/-- Reconciliation of one prior entry with one incoming entry of the same
name, embedding the in-branch of merge_repos (src/daily.py lines 544-563):
keywords are list(set(old + new)), stars and forks are max(old, new), the
emoji string is the joined character set of the concatenation, the
category is replaced only when the old one is exactly "Other" and the new
one is not, and the techstack is list(set(old + new)).  The fields name,
description, html_url and readme of the old entry are not touched by this
branch of the source.  In the source this branch is dead code for every
entry: the enrichment prefix of the loop body raises TypeError first
(see enrichRepo). -/
def mergeOne (old rep : RepoData) : RepoData :=
  { old with
    keywords := (old.keywords ++ rep.keywords).dedup
    stars := max old.stars rep.stars
    forks := max old.forks rep.forks
    emojis := (old.emojis ++ rep.emojis).dedup
    category :=
      if old.category = "Other" ∧ rep.category ≠ "Other" then rep.category
      else old.category
    techstack := (old.techstack ++ rep.techstack).dedup }

/-- Dict-update logic of the inner loop of merge_repos in isolation: an
incoming entry either updates the binding of its name in place or is
appended as a new binding, as Python dict assignment does (src/daily.py
lines 542-566).  In the source this update is never reached for any
entry, because the enrichment prefix of the loop body (lines 528-539)
raises TypeError first; stepRepoE is the faithful step including that
error path. -/
def stepRepo (acc : List (String × RepoData)) (rep : RepoData) : List (String × RepoData) :=
  match dictLookup acc rep.name with
  | some o => dictUpdate acc rep.name (mergeOne o rep)
  | none => acc ++ [(rep.name, rep)]

/-- Reconciliation fold of merge_repos with the failing enrichment
collapsed: the two nested loops of src/daily.py lines 523-566 applied to
incoming entries as if the enrichment prefix had succeeded and left them
unchanged.  In the source this return path is reachable only when the
harvest carries no entries, because the first incoming entry raises
TypeError at line 529 (see mergeReposE, the faithful embedding with the
error path); this total fold is kept for the entry-free case and for
stating properties of the reconciliation text. -/
def mergeRepos (old : List (String × RepoData))
    (harvest : List (String × List RepoData)) : List (String × RepoData) :=
  harvest.foldl (fun acc p => p.2.foldl stepRepo acc) old

/-- Incoming entries of the harvest dict in iteration order. -/
def flattenNew (harvest : List (String × List RepoData)) : List RepoData :=
  (harvest.map Prod.snd).flatten

/-- Python exception raised on the daily merge path. -/
inductive PyError where
  | typeError
deriving DecidableEq

/-- Embedding of the per-entry enrichment prefix of the merge loop body
(src/daily.py lines 528-539): its first statement,
repo["emojis"] = generate_emojis(repo) at line 529, passes one argument
to generate_emojis (line 176), whose two positional parameters repo_data
and readme_content have no defaults, so the call raises TypeError for
every entry and none of the later statements run (line 533 would in turn
raise KeyError, since harvest records carry no keywords key). -/
def enrichRepo (_rep : RepoData) : Except PyError RepoData :=
  Except.error PyError.typeError

/-- One step of the inner loop of merge_repos with its error path: the
enrichment prefix runs first and raises, so the dict update of lines
542-566 is never reached for any incoming entry. -/
def stepRepoE (acc : List (String × RepoData)) (rep : RepoData) :
    Except PyError (List (String × RepoData)) := do
  let enriched ← enrichRepo rep
  pure (stepRepo acc enriched)

/-- Faithful embedding of merge_repos (src/daily.py lines 510-568)
including its error path: the nested loops fold every incoming entry
through stepRepoE, so the first incoming entry raises TypeError and the
merged snapshot is returned only when the harvest carries no entries. -/
def mergeReposE (old : List (String × RepoData))
    (harvest : List (String × List RepoData)) :
    Except PyError (List (String × RepoData)) :=
  harvest.foldlM (fun acc p => p.2.foldlM stepRepoE acc) old

theorem mergeReposE_raises (old : List (String × RepoData))
    (harvest : List (String × List RepoData)) (h : flattenNew harvest ≠ []) :
    mergeReposE old harvest = Except.error PyError.typeError := by
  induction harvest generalizing old with
  | nil => exact absurd rfl h
  | cons p rest ih =>
    rcases p with ⟨kw, rs⟩
    cases rs with
    | nil =>
      have e1 : mergeReposE old ((kw, ([] : List RepoData)) :: rest) =
          mergeReposE old rest := rfl
      have e2 : flattenNew ((kw, ([] : List RepoData)) :: rest) = flattenNew rest := rfl
      rw [e1]
      rw [e2] at h
      exact ih old h
    | cons r rs2 => rfl

theorem mergeReposE_ok (old : List (String × RepoData))
    (harvest : List (String × List RepoData)) (h : flattenNew harvest = []) :
    mergeReposE old harvest = Except.ok old := by
  induction harvest generalizing old with
  | nil => rfl
  | cons p rest ih =>
    rcases p with ⟨kw, rs⟩
    cases rs with
    | nil =>
      have e1 : mergeReposE old ((kw, ([] : List RepoData)) :: rest) =
          mergeReposE old rest := rfl
      have e2 : flattenNew ((kw, ([] : List RepoData)) :: rest) = flattenNew rest := rfl
      rw [e1]
      rw [e2] at h
      exact ih old h
    | cons r rs2 =>
      exfalso
      have e3 : flattenNew ((kw, r :: rs2) :: rest) = r :: (rs2 ++ flattenNew rest) := by
        simp [flattenNew]
      rw [e3] at h
      exact List.cons_ne_nil r _ h

theorem mergeRepos_eq_foldl (old : List (String × RepoData))
    (harvest : List (String × List RepoData)) :
    mergeRepos old harvest = (flattenNew harvest).foldl stepRepo old := by
  induction harvest generalizing old with
  | nil => rfl
  | cons p rest ih =>
    have h1 : mergeRepos old (p :: rest) = mergeRepos (p.2.foldl stepRepo old) rest := rfl
    have h2 : flattenNew (p :: rest) = p.2 ++ flattenNew rest := rfl
    rw [h1, ih, h2, List.foldl_append]

theorem dictLookup_stepRepo (acc : List (String × RepoData)) (rep : RepoData)
    (name : String) (h : rep.name ≠ name) :
    dictLookup (stepRepo acc rep) name = dictLookup acc name := by
  unfold stepRepo
  cases hl : dictLookup acc rep.name with
  | some o => exact dictLookup_update_ne acc rep.name name (mergeOne o rep) (Ne.symm h)
  | none =>
    rw [dictLookup_append]
    cases hn : dictLookup acc name with
    | some v => rfl
    | none => simp [dictLookup, h]

theorem dictLookup_foldl_stepRepo (rs : List RepoData) (acc : List (String × RepoData))
    (name : String) (h : ∀ r ∈ rs, r.name ≠ name) :
    dictLookup (rs.foldl stepRepo acc) name = dictLookup acc name := by
  induction rs generalizing acc with
  | nil => rfl
  | cons r rest ih =>
    rw [List.foldl_cons, ih (stepRepo acc r) (fun x hx => h x (List.mem_cons_of_mem r hx))]
    exact dictLookup_stepRepo acc r name (h r (List.mem_cons_self r rest))

theorem dictLookup_foldl_stepRepo_unique (rs : List RepoData)
    (acc : List (String × RepoData)) (name : String) (o r : RepoData)
    (ho : dictLookup acc name = some o)
    (hf : rs.filter (fun x => x.name = name) = [r]) :
    dictLookup (rs.foldl stepRepo acc) name = some (mergeOne o r) := by
  induction rs generalizing acc o with
  | nil => simp at hf
  | cons x rest ih =>
    by_cases hx : x.name = name
    · rw [List.filter_cons_of_pos (by simpa using hx)] at hf
      have hxr : x = r := (List.cons_eq_cons.mp hf).1
      have hrest : rest.filter (fun x => x.name = name) = [] :=
        (List.cons_eq_cons.mp hf).2
      have hall : ∀ y ∈ rest, y.name ≠ name := by
        intro y hy
        have := List.filter_eq_nil_iff.mp hrest y hy
        simpa using this
      have hstep : dictLookup (stepRepo acc x) name = some (mergeOne o x) := by
        unfold stepRepo
        rw [hx, ho]
        exact dictLookup_update_eq acc name (mergeOne o x) (by rw [ho]; rfl)
      rw [List.foldl_cons, dictLookup_foldl_stepRepo rest (stepRepo acc x) name hall,
        hstep, hxr]
    · rw [List.filter_cons_of_neg (by simpa using hx)] at hf
      rw [List.foldl_cons]
      exact ih (stepRepo acc x) o (by rw [dictLookup_stepRepo acc x name hx, ho]) hf

/-- Merged entry for a name present in the prior snapshot and harvested
exactly once: the output binds it to the field-wise reconciliation of the
prior entry with the single incoming entry. -/
theorem mergeRepos_lookup_both (old : List (String × RepoData))
    (harvest : List (String × List RepoData)) (name : String) (o r : RepoData)
    (ho : dictLookup old name = some o)
    (hf : (flattenNew harvest).filter (fun x => x.name = name) = [r]) :
    dictLookup (mergeRepos old harvest) name = some (mergeOne o r) := by
  rw [mergeRepos_eq_foldl]
  exact dictLookup_foldl_stepRepo_unique (flattenNew harvest) old name o r ho hf

end Daily

namespace Extract

/-- Record for one listing entry of src/extract_mcp_servers.py.  The rows
read back from the previous CSV and the freshly extracted entries share
this field set (there is no readme field in this variant). -/
structure Server where
  name : String
  description : String
  html_url : String
  stars : Nat
  forks : Nat
  category : String
  techstack : List String
  keywords : List String
  emojis : List Char
deriving DecidableEq

/-- One step of merge_servers: the Python statement
old_servers_dict[name].update(new_server) replaces every field of the
stored entry (the incoming dict carries the full field set), and an
unknown name is appended (src/extract_mcp_servers.py lines 210-217).
Binding a name in a Python dict updates in place when the key exists and
appends otherwise, which is also the meaning of the dict comprehension
that builds the old-server dict, so the same step embeds both. -/
def stepS (d : List (String × Server)) (n : Server) : List (String × Server) :=
  if (dictLookup d n.name).isSome then dictUpdate d n.name n
  else d ++ [(n.name, n)]

/-- Dict comprehension over the old server list keyed by name
(src/extract_mcp_servers.py line 207): later duplicates overwrite the
value in place, as in a Python dict. -/
def toDictS (l : List Server) : List (String × Server) :=
  l.foldl stepS []

/-- Embedding of merge_servers (src/extract_mcp_servers.py lines
195-220): build a dict of the old servers by name, fold the new servers
into it, and return the value list. -/
def mergeServers (old new : List Server) : List Server :=
  (new.foldl stepS (toDictS old)).map Prod.snd

theorem dictLookup_eq_none_of_not_mem {α : Type} (d : List (String × α)) (k : String)
    (h : k ∉ d.map Prod.fst) : dictLookup d k = none := by
  induction d with
  | nil => rfl
  | cons p rest ih =>
    simp only [List.map_cons, List.mem_cons, not_or] at h
    have hp : p.1 ≠ k := fun hp => h.1 hp.symm
    simp [dictLookup, hp, ih h.2]

theorem foldl_stepS_of_nodup (l : List Server) (d : List (String × Server))
    (h : (d.map Prod.fst ++ l.map Server.name).Nodup) :
    l.foldl stepS d = d ++ l.map (fun e => (e.name, e)) := by
  induction l generalizing d with
  | nil => simp
  | cons e rest ih =>
    have hdisj : (d.map Prod.fst).Disjoint ((e :: rest).map Server.name) :=
      List.disjoint_of_nodup_append h
    have hnotin : e.name ∉ d.map Prod.fst := by
      intro hmem
      exact hdisj hmem (by simp)
    have hstep : stepS d e = d ++ [(e.name, e)] := by
      unfold stepS
      rw [dictLookup_eq_none_of_not_mem d e.name hnotin]
      rfl
    have hkeys : (d ++ [(e.name, e)]).map Prod.fst = d.map Prod.fst ++ [e.name] := by
      simp
    have h2 : ((d ++ [(e.name, e)]).map Prod.fst ++ rest.map Server.name).Nodup := by
      rw [hkeys, List.append_assoc]
      simpa using h
    rw [List.foldl_cons, hstep, ih (d ++ [(e.name, e)]) h2, List.append_assoc]
    rfl

theorem toDictS_of_nodup (l : List Server) (h : (l.map Server.name).Nodup) :
    toDictS l = l.map (fun e => (e.name, e)) := by
  have := foldl_stepS_of_nodup l [] (by simpa using h)
  simpa [toDictS] using this

theorem mem_dictUpdate_of_ne {α : Type} (d : List (String × α)) (k kk : String)
    (v vv : α) (hmem : (k, v) ∈ d) (hne : k ≠ kk) : (k, v) ∈ dictUpdate d kk vv := by
  induction d with
  | nil => cases hmem
  | cons p rest ih =>
    rcases List.mem_cons.mp hmem with hp | hrest
    · subst hp
      simp [dictUpdate, hne]
    · by_cases hpk : p.1 = kk
      · simp [dictUpdate, hpk, ih hrest]
      · simp [dictUpdate, hpk, ih hrest]

theorem mem_stepS (d : List (String × Server)) (n : Server) (k : String) (v : Server)
    (hmem : (k, v) ∈ d) (hne : k ≠ n.name) : (k, v) ∈ stepS d n := by
  unfold stepS
  split
  · exact mem_dictUpdate_of_ne d k n.name v n hmem hne
  · exact List.mem_append_left _ hmem

theorem mem_foldl_stepS (news : List Server) (d : List (String × Server)) (k : String)
    (v : Server) (hmem : (k, v) ∈ d) (hne : ∀ n ∈ news, n.name ≠ k) :
    (k, v) ∈ news.foldl stepS d := by
  induction news generalizing d with
  | nil => exact hmem
  | cons n rest ih =>
    rw [List.foldl_cons]
    exact ih (stepS d n)
      (mem_stepS d n k v hmem (fun hk => hne n (by simp) hk.symm))
      (fun x hx => hne x (List.mem_cons_of_mem n hx))

theorem dictLookup_map_pair_isSome (l : List Server) (nm : String)
    (h : nm ∈ l.map Server.name) :
    (dictLookup (l.map (fun e => (e.name, e))) nm).isSome = true := by
  induction l with
  | nil => simp at h
  | cons e rest ih =>
    by_cases he : e.name = nm
    · simp [dictLookup, he]
    · have h' : nm = e.name ∨ nm ∈ rest.map Server.name := by
        simpa [List.mem_map] using h
      rcases h' with hh | hh
      · exact absurd hh.symm he
      · simp only [List.map_cons, dictLookup, if_neg he]
        exact ih hh

theorem dictUpdate_map_pair (l : List Server) (nm : String) (v : Server) :
    dictUpdate (l.map (fun e => (e.name, e))) nm v =
      l.map (fun e => if e.name = nm then (nm, v) else (e.name, e)) := by
  induction l with
  | nil => rfl
  | cons e rest ih =>
    by_cases he : e.name = nm
    · simp [dictUpdate, he, ih]
    · simp [dictUpdate, he, ih]

theorem map_snd_update_pair (l : List Server) (nm : String) (v : Server) :
    (l.map (fun e => if e.name = nm then (nm, v) else (e.name, e))).map Prod.snd =
      l.map (fun e => if e.name = nm then v else e) := by
  induction l with
  | nil => rfl
  | cons e rest ih =>
    by_cases he : e.name = nm
    · simp [he, ih]
    · simp [he, ih]

/-- Folding a single incoming server whose name already exists replaces
the stored entry wholesale: every field of the stored record, including
an empty description or url, becomes the incoming one. -/
theorem mergeServers_single_update (olds : List Server) (n : Server)
    (hnodup : (olds.map Server.name).Nodup) (hmem : n.name ∈ olds.map Server.name) :
    mergeServers olds [n] = olds.map (fun e => if e.name = n.name then n else e) := by
  unfold mergeServers
  rw [toDictS_of_nodup olds hnodup]
  rw [List.foldl_cons, List.foldl_nil]
  unfold stepS
  rw [if_pos (dictLookup_map_pair_isSome olds n.name hmem)]
  rw [dictUpdate_map_pair, map_snd_update_pair]

end Extract

/-- ASCII model of the Python word character class, the regex escape for
letters, digits and the underscore. -/
def wordChar (c : Char) : Bool := c.isAlphanum || c = '_'

namespace Daily

/-- Marker literal of src/daily.py line 287, code points 00F0 0178 201D 2014. -/
def linkE : List Char := "ðŸ”—".data

/-- Marker literal of src/daily.py line 289, code points 00F0 0178 017D 00A8. -/
def artE : List Char := "ðŸŽ¨".data

/-- Marker literal of src/daily.py line 291, code points 00F0 0178 201C 201A. -/
def folderE : List Char := "ðŸ“‚".data

/-- Marker literal of src/daily.py line 293, code points 00E2 02DC 00EF 00B8. -/
def cloudE : List Char := "â˜ï¸".data

/-- Marker literal of src/daily.py line 295, code points 00F0 0178 2018 00A8 00E2 20AC 00F0 0178 2019 00BB. -/
def coderE : List Char := "ðŸ‘¨â€ðŸ’»".data

/-- Marker literal of src/daily.py line 297, code points 00F0 0178 00A4 2013. -/
def robotE : List Char := "ðŸ¤–".data

/-- Marker literal of src/daily.py line 299, code points 00F0 0178 2013 00A5 00EF 00B8. -/
def desktopE : List Char := "ðŸ–¥ï¸".data

/-- Marker literal of src/daily.py line 301, code points 00F0 0178 2019 00AC. -/
def chatBubbleE : List Char := "ðŸ’¬".data

/-- Marker literal of src/daily.py line 303, code points 00F0 0178 2018 00A4. -/
def bustE : List Char := "ðŸ‘¤".data

/-- Marker literal of src/daily.py line 305, code points 00F0 0178 2014 201E 00EF 00B8. -/
def cabinetE : List Char := "ðŸ—„ï¸".data

/-- Marker literal of src/daily.py line 307, code points 00F0 0178 201C 0160. -/
def chartE : List Char := "ðŸ“Š".data

/-- Marker literal of src/daily.py line 309, code points 00F0 0178 203A 00A0 00EF 00B8. -/
def toolsE : List Char := "ðŸ› ï¸".data

/-- Marker literal of src/daily.py line 311, code points 00F0 0178 00A7 00AE. -/
def abacusE : List Char := "ðŸ§®".data

/-- Marker literal of src/daily.py line 313, code points 00F0 0178 201C 0178. -/
def pagerE : List Char := "ðŸ“Ÿ".data

/-- Marker literal of src/daily.py line 317, code points 00F0 0178 2019 00B0. -/
def moneyE : List Char := "ðŸ’°".data

/-- Marker literal of src/daily.py line 319, code points 00F0 0178 017D 00AE. -/
def gameE : List Char := "ðŸŽ®".data

/-- Marker literal of src/daily.py line 321, code points 00F0 0178 00A7 00A0. -/
def brainE : List Char := "ðŸ§ ".data

/-- Marker literal of src/daily.py line 323, code points 00F0 0178 2014 00BA 00EF 00B8. -/
def mapE : List Char := "ðŸ—ºï¸".data

/-- Marker literal of src/daily.py line 325, code points 00F0 0178 017D 00AF. -/
def targetE : List Char := "ðŸŽ¯".data

/-- Marker literal of src/daily.py line 329, code points 00F0 0178 201D 017D. -/
def magnifierE : List Char := "ðŸ”Ž".data

/-- Marker literal of src/daily.py line 331, code points 00F0 0178 201D 2019. -/
def lockE : List Char := "ðŸ”’".data

/-- Marker literal of src/daily.py line 333, code points 00F0 0178 0192. -/
def runnerE : List Char := "ðŸƒ".data

/-- Marker literal of src/daily.py line 335, code points 00F0 0178 017D 00A7. -/
def headphoneE : List Char := "ðŸŽ§".data

/-- Marker literal of src/daily.py line 337, code points 00F0 0178 0152 017D. -/
def globeE : List Char := "ðŸŒŽ".data

/-- Marker literal of src/daily.py line 339, code points 00F0 0178 0161 2020. -/
def trainE : List Char := "ðŸš†".data

/-- Marker literal of src/daily.py line 341, code points 00F0 0178 201D 201E. -/
def arrowsE : List Char := "ðŸ”„".data

/-- One ordered classification rule: a predicate over the keyword list
and the marker string, and the category label it yields. -/
abbrev CatRule := (List String → List Char → Bool) × String

/-- The ordered predicate list of assign_category (src/daily.py lines
287-370), highest priority first.  Each entry transcribes one branch of
the if/elif chain: a marker-string membership test, a keyword test of the
form any(word in keywords for word in cands), or the stated combination
of the two. -/
def categoryRules : List CatRule := [
  (fun _ es => strContains es linkE, "aggregator"),
  (fun _ es => strContains es artE, "art_culture"),
  (fun ks es => strContains es folderE && kwAny ["browser", "automation"] ks, "browser_automation"),
  (fun ks es => strContains es cloudE && kwAny ["cloud", "aws", "azure", "gcp"] ks, "cloud_platform"),
  (fun ks es => strContains es coderE || kwAny ["code", "execution"] ks, "code_execution"),
  (fun ks es => strContains es robotE || kwAny ["agent", "coding"] ks, "coding_agent"),
  (fun ks es => strContains es desktopE || kwAny ["cli", "command", "line"] ks, "command_line"),
  (fun ks es => strContains es chatBubbleE || kwAny ["communication", "chat"] ks, "communication"),
  (fun ks es => strContains es bustE || kwAny ["customer", "data"] ks, "customer_data"),
  (fun ks es => strContains es cabinetE || kwAny ["database", "sql", "nosql"] ks, "database"),
  (fun ks es => strContains es chartE && kwAny ["data", "platform"] ks, "data_platform"),
  (fun ks es => strContains es toolsE || kwAny ["developer", "tool"] ks, "developer_tool"),
  (fun ks es => strContains es abacusE || kwAny ["data", "science"] ks, "data_science"),
  (fun ks es => strContains es pagerE || kwAny ["embedded", "system"] ks, "embedded_system"),
  (fun ks es => strContains es folderE && kwAny ["file", "system"] ks, "file_system"),
  (fun ks es => strContains es moneyE || kwAny ["finance", "money"] ks, "finance"),
  (fun ks es => strContains es gameE || kwAny ["gaming", "game"] ks, "gaming"),
  (fun ks es => strContains es brainE || kwAny ["knowledge", "brain"] ks, "knowledge"),
  (fun ks es => strContains es mapE || kwAny ["location", "map"] ks, "location"),
  (fun ks es => strContains es targetE || kwAny ["marketing", "ad"] ks, "marketing"),
  (fun ks es => strContains es chartE && kwAny ["monitoring", "metrics"] ks, "monitoring"),
  (fun ks es => strContains es magnifierE || kwAny ["search", "find"] ks, "search"),
  (fun ks es => strContains es lockE || kwAny ["security", "secure"] ks, "security"),
  (fun ks es => strContains es runnerE || kwAny ["sports", "athlete"] ks, "sports"),
  (fun ks es => strContains es headphoneE || kwAny ["support", "help"] ks, "support"),
  (fun ks es => strContains es globeE || kwAny ["translation", "language"] ks, "translation"),
  (fun ks es => strContains es trainE || kwAny ["travel", "trip"] ks, "travel"),
  (fun ks es => strContains es arrowsE || kwAny ["version", "control"] ks, "version_control"),
  (fun ks _ => kwAny ["mcp", "model context protocol", "context protocol"] ks, "mcp"),
  (fun ks _ => kwAny ["framework", "sdk", "kit", "template"] ks, "framework"),
  (fun ks _ => kwAny ["utility", "tool", "helper", "gateway", "proxy", "bridge"] ks, "utility"),
  (fun ks _ => kwAny ["client", "chat", "interface"] ks, "client"),
  (fun ks _ => kwAny ["tutorial", "guide", "example", "demo"] ks, "tutorial"),
  (fun ks _ => kwAny ["community", "discord", "reddit"] ks, "community"),
  (fun ks _ => kwAny ["database", "sql", "nosql", "postgres", "mysql", "mongodb"] ks, "database"),
  (fun ks _ => kwAny ["api", "rest", "graphql", "http"] ks, "api"),
  (fun ks _ => kwAny ["file", "storage", "s3", "cloud"] ks, "storage"),
  (fun ks _ => kwAny ["ai", "llm", "gpt", "claude", "model"] ks, "ai"),
  (fun ks _ => kwAny ["chat", "messaging", "discord", "slack", "telegram"] ks, "messaging"),
  (fun ks _ => kwAny ["search", "elastic", "lucene"] ks, "search")]

/-- First-match evaluation of an ordered rule list, the meaning of an
if/elif chain: the label of the first satisfied predicate, the default
label "general" when none is satisfied. -/
def firstLabel (ks : List String) (es : List Char) : List CatRule → String
  | [] => "general"
  | r :: rs => if r.1 ks es then r.2 else firstLabel ks es rs

/-- Embedding of assign_category (src/daily.py lines 281-372): the early
return of the default label when both inputs are empty, then the if/elif
chain of categoryRules evaluated top to bottom, first match wins, default
"general". -/
def assign_category (keywords : List String) (emojis : List Char) : String :=
  if keywords.isEmpty && emojis.isEmpty then "general"
  else firstLabel keywords emojis categoryRules

theorem firstLabel_label_mem (ks : List String) (es : List Char) (rs : List CatRule) :
    firstLabel ks es rs ∈ "general" :: rs.map Prod.snd := by
  induction rs with
  | nil => simp [firstLabel]
  | cons r rest ih =>
    by_cases hr : r.1 ks es = true
    · have h1 : firstLabel ks es (r :: rest) = r.2 := by
        simp [firstLabel, hr]
      rw [h1, List.map_cons]
      exact List.mem_cons.mpr (Or.inr (List.mem_cons.mpr (Or.inl rfl)))
    · have hrf : r.1 ks es = false := by
        cases h : r.1 ks es
        · rfl
        · exact absurd h hr
      have h1 : firstLabel ks es (r :: rest) = firstLabel ks es rest := by
        simp [firstLabel, hrf]
      rw [h1, List.map_cons]
      rcases List.mem_cons.mp ih with h | h
      · exact List.mem_cons.mpr (Or.inl h)
      · exact List.mem_cons.mpr (Or.inr (List.mem_cons.mpr (Or.inr h)))

theorem firstLabel_of_all_false (ks : List String) (es : List Char) (rs : List CatRule)
    (h : ∀ r ∈ rs, r.1 ks es = false) : firstLabel ks es rs = "general" := by
  induction rs with
  | nil => rfl
  | cons r rest ih =>
    have hr := h r (List.mem_cons_self r rest)
    simp only [firstLabel, hr, Bool.false_eq_true, if_false]
    exact ih (fun x hx => h x (List.mem_cons_of_mem r hx))

theorem firstLabel_first_sat (rs : List CatRule) (ks : List String) (es : List Char) :
    ∀ i, ∀ hi : i < rs.length, (rs.get ⟨i, hi⟩).1 ks es = true →
    ∃ k, ∃ hk : k < rs.length, k ≤ i ∧ (rs.get ⟨k, hk⟩).1 ks es = true ∧
      (∀ m, ∀ hm : m < rs.length, m < k → (rs.get ⟨m, hm⟩).1 ks es = false) ∧
      firstLabel ks es rs = (rs.get ⟨k, hk⟩).2 := by
  induction rs with
  | nil => intro i hi _; exact absurd hi (Nat.not_lt_zero i)
  | cons r rest ih =>
    intro i hi hsat
    by_cases hr : r.1 ks es = true
    · refine ⟨0, Nat.succ_pos _, Nat.zero_le i, by simpa using hr, ?_, ?_⟩
      · intro m hm hmk
        exact absurd hmk (Nat.not_lt_zero m)
      · simp [firstLabel, hr]
    · have hrf : r.1 ks es = false := by
        cases h : r.1 ks es
        · rfl
        · exact absurd h hr
      cases i with
      | zero => exact absurd (by simpa using hsat) hr
      | succ j =>
        have hj : j < rest.length := Nat.lt_of_succ_lt_succ hi
        have hsat2 : (rest.get ⟨j, hj⟩).1 ks es = true := by simpa using hsat
        obtain ⟨k, hk, hle, hs, hmin, heq⟩ := ih j hj hsat2
        refine ⟨k + 1, Nat.succ_lt_succ hk, Nat.succ_le_succ hle, by simpa using hs, ?_, ?_⟩
        · intro m hm hmk
          cases m with
          | zero => simpa using hrf
          | succ n =>
            have hn : n < rest.length := Nat.lt_of_succ_lt_succ hm
            have hnk : n < k := Nat.lt_of_succ_lt_succ hmk
            simpa using hmin n hn hnk
        · simp only [firstLabel, hrf, Bool.false_eq_true, if_false]
          simpa using heq

theorem categoryRules_false_on_empty : ∀ r ∈ categoryRules, r.1 [] [] = false := by decide

theorem assign_category_ne_Other (ks : List String) (es : List Char) :
    assign_category ks es ≠ "Other" := by
  intro h
  unfold assign_category at h
  split at h
  · exact absurd h (by decide)
  · have hmem := firstLabel_label_mem ks es categoryRules
    rw [h] at hmem
    exact absurd hmem (by decide)

end Daily

namespace ManualInsert

/-- Marker literal of src/manual-insert.py line 104, code points 1F517. -/
def mLinkE : List Char := "🔗".data

/-- Marker literal of src/manual-insert.py line 106, code points 1F3A8. -/
def mArtE : List Char := "🎨".data

/-- Marker literal of src/manual-insert.py line 108, code points 1F4C2. -/
def mFolderE : List Char := "📂".data

/-- Marker literal of src/manual-insert.py line 110, code points 2601 FE0F. -/
def mCloudE : List Char := "☁️".data

/-- Marker literal of src/manual-insert.py line 112, code points 1F468 200D 1F4BB. -/
def mCoderE : List Char := "👨‍💻".data

/-- Marker literal of src/manual-insert.py line 114, code points 1F916. -/
def mRobotE : List Char := "🤖".data

/-- Marker literal of src/manual-insert.py line 116, code points 1F5A5 FE0F. -/
def mDesktopE : List Char := "🖥️".data

/-- Marker literal of src/manual-insert.py line 118, code points 1F4AC. -/
def mChatE : List Char := "💬".data

/-- Marker literal of src/manual-insert.py line 120, code points 1F464. -/
def mBustE : List Char := "👤".data

/-- Marker literal of src/manual-insert.py line 122, code points 1F5C4 FE0F. -/
def mCabinetE : List Char := "🗄️".data

/-- Marker literal of src/manual-insert.py line 124, code points 1F4CA. -/
def mChartE : List Char := "📊".data

/-- Marker literal of src/manual-insert.py line 126, code points 1F6E0 FE0F. -/
def mToolsE : List Char := "🛠️".data

/-- Marker literal of src/manual-insert.py line 128, code points 1F9EE. -/
def mAbacusE : List Char := "🧮".data

/-- Marker literal of src/manual-insert.py line 130, code points 1F4DF. -/
def mPagerE : List Char := "📟".data

/-- Marker literal of src/manual-insert.py line 134, code points 1F4B0. -/
def mMoneyE : List Char := "💰".data

/-- Marker literal of src/manual-insert.py line 136, code points 1F3AE. -/
def mGameE : List Char := "🎮".data

/-- Marker literal of src/manual-insert.py line 138, code points 1F9E0. -/
def mBrainE : List Char := "🧠".data

/-- Marker literal of src/manual-insert.py line 140, code points 1F5FA FE0F. -/
def mMapE : List Char := "🗺️".data

/-- Marker literal of src/manual-insert.py line 142, code points 1F3AF. -/
def mTargetE : List Char := "🎯".data

/-- Marker literal of src/manual-insert.py line 146, code points 1F50E. -/
def mMagnifierE : List Char := "🔎".data

/-- Marker literal of src/manual-insert.py line 148, code points 1F512. -/
def mLockE : List Char := "🔒".data

/-- Marker literal of src/manual-insert.py line 150, code points 1F3C3. -/
def mRunnerE : List Char := "🏃".data

/-- Marker literal of src/manual-insert.py line 152, code points 1F3A7. -/
def mHeadphoneE : List Char := "🎧".data

/-- Marker literal of src/manual-insert.py line 154, code points 1F30E. -/
def mGlobeE : List Char := "🌎".data

/-- Marker literal of src/manual-insert.py line 156, code points 1F686. -/
def mTrainE : List Char := "🚆".data

/-- Marker literal of src/manual-insert.py line 158, code points 1F504. -/
def mArrowsE : List Char := "🔄".data

/-- Embedding of assign_category (src/manual-insert.py lines 101-173):
an if/elif chain over the lowercased description text and the raw marker
string, first match wins, default label "other".  A test of the form
strContains lt w corresponds to the Python test w in text.lower(), and
the five final branches transcribe the re.search calls on alternations of
literal words with re.IGNORECASE. -/
def assign_category (text emojis : String) : String :=
  let lt := text.data.map Char.toLower
  let le := emojis.data
  if strContains le mLinkE then "aggregator"
  else if strContains le mArtE then "art_culture"
  else if strContains le mFolderE && strContains lt "browser".data then "browser_automation"
  else if strContains le mCloudE && strContains lt "cloud".data then "cloud_platform"
  else if strContains le mCoderE || strContains lt "code".data then "code_execution"
  else if strContains le mRobotE || strContains lt "agent".data then "coding_agent"
  else if strContains le mDesktopE || strContains lt "cli".data then "command_line"
  else if strContains le mChatE || strContains lt "communication".data then "communication"
  else if strContains le mBustE || strContains lt "customer".data then "customer_data"
  else if strContains le mCabinetE || strContains lt "database".data then "database"
  else if strContains le mChartE && strContains lt "data".data then "data_platform"
  else if strContains le mToolsE || strContains lt "developer".data then "developer_tool"
  else if strContains le mAbacusE || strContains lt "data science".data then "data_science"
  else if strContains le mPagerE || strContains lt "embedded".data then "embedded_system"
  else if strContains le mFolderE && strContains lt "file".data then "file_system"
  else if strContains le mMoneyE || strContains lt "finance".data then "finance"
  else if strContains le mGameE || strContains lt "gaming".data then "gaming"
  else if strContains le mBrainE || strContains lt "knowledge".data then "knowledge"
  else if strContains le mMapE || strContains lt "location".data then "location"
  else if strContains le mTargetE || strContains lt "marketing".data then "marketing"
  else if strContains le mChartE && strContains lt "monitoring".data then "monitoring"
  else if strContains le mMagnifierE || strContains lt "search".data then "search"
  else if strContains le mLockE || strContains lt "security".data then "security"
  else if strContains le mRunnerE || strContains lt "sports".data then "sports"
  else if strContains le mHeadphoneE || strContains lt "support".data then "support"
  else if strContains le mGlobeE || strContains lt "translation".data then "translation"
  else if strContains le mTrainE || strContains lt "travel".data then "travel"
  else if strContains le mArrowsE || strContains lt "version".data then "version_control"
  else if strContains lt "framework".data || strContains lt "sdk".data || strContains lt "kit".data || strContains lt "template".data then "framework"
  else if strContains lt "utility".data || strContains lt "tool".data || strContains lt "helper".data || strContains lt "gateway".data || strContains lt "proxy".data || strContains lt "bridge".data then "utility"
  else if strContains lt "client".data || strContains lt "chat".data || strContains lt "interface".data then "client"
  else if strContains lt "tutorial".data || strContains lt "guide".data || strContains lt "example".data || strContains lt "demo".data then "tutorial"
  else if strContains lt "community".data || strContains lt "discord".data || strContains lt "reddit".data then "community"
  else "other"

end ManualInsert

/-- Character class of the keyword pattern of src/daily.py line 275:
ASCII letters, digits and the hyphen. -/
def tokChar (c : Char) : Bool := c.isAlphanum || c = '-'

/-- Word boundary test of the regex escape for boundaries, between two
optional characters: the word-character status changes, and a position
outside the string counts as non-word. -/
def wbAt (a b : Option Char) : Bool :=
  (match a with | some c => wordChar c | none => false) !=
    (match b with | some c => wordChar c | none => false)

/-- Largest end position of a match starting at the head of s: the
greedy one-or-more quantifier takes the whole run of class characters and
backtracks until a word boundary holds at the end; none when no end of
positive length works. -/
def bestEnd (s : List Char) : Nat → Option Nat
  | 0 => none
  | k + 1 => if wbAt s[k]? s[k + 1]? then some (k + 1) else bestEnd s k

/-- Scanner for re.findall with the keyword pattern: at each position,
when a word boundary holds and the class matches, emit the backtracked
greedy match and continue after it; otherwise advance one character.  The
fuel argument bounds recursion and is set to the string length, which
every step decreases. -/
def findTokensAux : Nat → Option Char → List Char → List (List Char)
  | 0, _, _ => []
  | _ + 1, _, [] => []
  | fuel + 1, prev, c :: rest =>
    if wbAt prev (some c) && tokChar c then
      match bestEnd (c :: rest) ((c :: rest).takeWhile tokChar).length with
      | some k =>
          ((c :: rest).takeWhile tokChar).take k ::
            findTokensAux fuel (c :: rest)[k - 1]? ((c :: rest).drop k)
      | none => findTokensAux fuel (some c) rest
    else findTokensAux fuel (some c) rest

/-- All matches of the keyword pattern in s, in order. -/
def findTokens (s : List Char) : List (List Char) := findTokensAux s.length none s

theorem bestEnd_pos (s : List Char) : ∀ n k, bestEnd s n = some k → 1 ≤ k := by
  intro n
  induction n with
  | zero => intro k h; simp [bestEnd] at h
  | succ m ih =>
    intro k h
    rw [bestEnd] at h
    split at h
    · cases h
      omega
    · exact ih k h

theorem mem_of_take {α : Type} : ∀ (n : Nat) (l : List α) (a : α), a ∈ l.take n → a ∈ l := by
  intro n
  induction n with
  | zero => intro l a h; simp at h
  | succ m ih =>
    intro l a h
    cases l with
    | nil => simp at h
    | cons x xs =>
      rw [List.take_succ_cons] at h
      rcases List.mem_cons.mp h with h | h
      · exact List.mem_cons.mpr (Or.inl h)
      · exact List.mem_cons.mpr (Or.inr (ih xs a h))

theorem takeWhile_sat {α : Type} (p : α → Bool) :
    ∀ (l : List α) (a : α), a ∈ l.takeWhile p → p a = true := by
  intro l
  induction l with
  | nil => intro a h; simp at h
  | cons x xs ih =>
    intro a h
    by_cases hx : p x = true
    · rw [List.takeWhile_cons_of_pos hx] at h
      rcases List.mem_cons.mp h with h | h
      · rw [h]; exact hx
      · exact ih a h
    · rw [List.takeWhile_cons_of_neg hx] at h
      simp at h

theorem findTokensAux_shape :
    ∀ (fuel : Nat) (prev : Option Char) (s t : List Char),
      t ∈ findTokensAux fuel prev s → t ≠ [] ∧ ∀ c ∈ t, tokChar c = true := by
  intro fuel
  induction fuel with
  | zero => intro prev s t ht; simp [findTokensAux] at ht
  | succ n ih =>
    intro prev s t ht
    cases s with
    | nil => simp [findTokensAux] at ht
    | cons c rest =>
      rw [findTokensAux] at ht
      by_cases hc : (wbAt prev (some c) && tokChar c) = true
      · rw [if_pos hc] at ht
        cases hbe : bestEnd (c :: rest) ((c :: rest).takeWhile tokChar).length with
        | none =>
          rw [hbe] at ht
          exact ih _ _ _ ht
        | some k =>
          rw [hbe] at ht
          rcases List.mem_cons.mp ht with h | h
          · constructor
            · have hk := bestEnd_pos _ _ _ hbe
              have hc2 : wbAt prev (some c) = true ∧ tokChar c = true := by simpa using hc
              have htc : tokChar c = true := hc2.2
              have hw : (c :: rest).takeWhile tokChar = c :: rest.takeWhile tokChar :=
                List.takeWhile_cons_of_pos htc
              rw [h, hw]
              cases k with
              | zero => omega
              | succ j =>
                rw [List.take_succ_cons]
                exact List.cons_ne_nil c _
            · intro ch hch
              rw [h] at hch
              exact takeWhile_sat tokChar _ ch (mem_of_take _ _ _ hch)
          · exact ih _ _ _ h
      · rw [if_neg hc] at ht
        exact ih _ _ _ ht

namespace Daily

/-- Embedding of extract_keywords (src/daily.py lines 269-278): an empty
description yields the empty list, otherwise the matches of the keyword
pattern in the lowercased description, passed through list(set(..)). -/
def extract_keywords (description : String) : List String :=
  if description = "" then []
  else ((findTokens (description.data.map Char.toLower)).map (fun cs => String.mk cs)).dedup

theorem extract_keywords_shape (d : String) (t : String)
    (ht : t ∈ extract_keywords d) : t ≠ "" ∧ ∀ c ∈ t.data, tokChar c = true := by
  unfold extract_keywords at ht
  split at ht
  · simp at ht
  · have ht2 := List.mem_dedup.mp ht
    obtain ⟨cs, hcs, hmk⟩ := List.mem_map.mp ht2
    obtain ⟨hne, hall⟩ := findTokensAux_shape _ _ _ _ hcs
    constructor
    · intro h0
      apply hne
      have hmk2 : String.mk cs = "" := hmk.trans h0
      have := congrArg String.data hmk2
      simpa using this
    · intro c hch
      apply hall
      have hdata : t.data = cs := by rw [← hmk]
      rw [hdata] at hch
      exact hch

end Daily

/-- Python str.split with no argument on a list of characters: split on
runs of whitespace and drop empty pieces. -/
def splitWs (s : List Char) : List (List Char) :=
  (s.foldr
    (fun c acc =>
      if c.isWhitespace then [] :: acc
      else
        match acc with
        | [] => [[c]]
        | g :: gs => (c :: g) :: gs)
    []).filter (fun g => !g.isEmpty)

namespace ManualInsert

/-- Stop-word set of extract_keywords (src/manual-insert.py line 181). -/
def commonWords : List String :=
  ["the", "a", "an", "and", "or", "but", "in", "on", "at", "to", "for", "of",
   "with", "by", "is", "are", "was", "were", "be", "been", "being", "have",
   "has", "had", "do", "does", "did", "will", "would", "shall", "should",
   "may", "might", "must", "can", "could"]

/-- Embedding of extract_keywords (src/manual-insert.py lines 175-183):
replace every character that is neither a word character nor whitespace
by a space, lowercase, split on whitespace, keep words that are not stop
words and have length strictly greater than two, then list(set(..)). -/
def extract_keywords (text : String) : List String :=
  (((splitWs ((text.data.map
        (fun c => if wordChar c || c.isWhitespace then c else ' ')).map
          Char.toLower)).map (fun cs => String.mk cs)).filter
    (fun w => !(decide (w ∈ commonWords)) && decide (2 < w.length))).dedup

end ManualInsert

/-- Base repository fixture with empty and zero fields. -/
def baseRepo : Daily.RepoData :=
  { name := "srv", description := "", html_url := "", stars := 0, forks := 0,
    readme := "", emojis := [], keywords := [], category := "general", techstack := [] }

/-- Base server fixture with empty and zero fields. -/
def baseS : Extract.Server :=
  { name := "srv", description := "", html_url := "", stars := 0, forks := 0,
    category := "", techstack := [], keywords := [], emojis := [] }

/-- Prior entry whose category is the default label the classifier
actually produces. -/
def c1old : Daily.RepoData := { baseRepo with category := Daily.assign_category [] [] }

/-- Incoming entry classified from the keyword database, so its category
is the specific label "database". -/
def c1new : Daily.RepoData :=
  { baseRepo with
    keywords := ["database"]
    category := Daily.assign_category ["database"] [] }

/-- Old server with a specific category. -/
def c1sOld : Extract.Server := { baseS with category := "database" }

/-- New server carrying the default category. -/
def c1sNew : Extract.Server := { baseS with category := "general" }

/-- C1: at the claimed input the faithful embedding of merge_repos
raises TypeError before any category logic runs, so the merged category
"database" never materialises; independently, the override in the
unreachable reconciliation text compares the old category against the
literal "Other", a label assign_category never returns (its default is
"general"), so even that text would keep the prior default and fires for
the reverse direction only vacuously; and merge_servers lets the
incoming default overwrite the specific prior category wholesale. -/
theorem c1_eval :
    c1old.category = "general" ∧ c1new.category = "database" ∧
    Daily.mergeReposE [("srv", c1old)] [("kw", [c1new])] =
      Except.error Daily.PyError.typeError ∧
    (Daily.mergeOne c1old c1new).category = "general" ∧
    (Daily.mergeOne { c1old with category := "database" }
      { c1new with category := "general" }).category = "database" ∧
    (∀ (ks : List String) (es : List Char), Daily.assign_category ks es ≠ "Other") ∧
    (Extract.mergeServers [c1sOld] [c1sNew]).map Extract.Server.category = ["general"] := by
  refine ⟨by decide, by decide, rfl, by decide, by decide,
    Daily.assign_category_ne_Other, by decide⟩

/-- Prior entry with non-empty text fields. -/
def c2old : Daily.RepoData :=
  { baseRepo with
    description := "old description"
    html_url := "http association"
    readme := "old readme" }

/-- Incoming entry with fresh non-empty text fields. -/
def c2new : Daily.RepoData :=
  { baseRepo with
    description := "new description"
    html_url := "new location"
    readme := "new readme" }

/-- Old server with a non-empty description. -/
def c2sOld : Extract.Server := { baseS with description := "old description" }

/-- New server with an empty description. -/
def c2sNew : Extract.Server := { baseS with description := "" }

/-- C2 counterexample: at a name present in both sides, merge_repos
raises TypeError instead of producing an entry with the non-empty
incoming description, and in merge_servers an empty incoming description
overwrites a non-empty prior one; both contradict the claimed
freshest-wins-when-non-empty rule. -/
theorem c2_counterexample :
    c2new.description ≠ "" ∧
    Daily.mergeReposE [("srv", c2old)] [("kw", [c2new])] =
      Except.error Daily.PyError.typeError ∧
    c2sNew.description = "" ∧
    (Extract.mergeServers [c2sOld] [c2sNew]).map Extract.Server.description ≠
      [c2sOld.description] := by
  refine ⟨by decide, rfl, rfl, by decide⟩

/-- C2 as amended: merge_repos never reconciles text fields at all, for
every harvest containing an entry it raises TypeError before its merge
branch runs (and even that unreachable branch would leave description,
html_url and readme of the prior entry untouched); merge_servers
replaces the stored entry wholesale with the incoming one (all fields,
even empty ones) whenever the name already exists. -/
theorem c2_amended :
    (∀ (old : List (String × Daily.RepoData))
      (harvest : List (String × List Daily.RepoData)),
      Daily.flattenNew harvest ≠ [] →
      Daily.mergeReposE old harvest = Except.error Daily.PyError.typeError) ∧
    (∀ o r : Daily.RepoData,
      (Daily.mergeOne o r).description = o.description ∧
      (Daily.mergeOne o r).html_url = o.html_url ∧
      (Daily.mergeOne o r).readme = o.readme) ∧
    (∀ (olds : List Extract.Server) (n : Extract.Server),
      (olds.map Extract.Server.name).Nodup → n.name ∈ olds.map Extract.Server.name →
      Extract.mergeServers olds [n] =
        olds.map (fun e => if e.name = n.name then n else e)) :=
  ⟨Daily.mergeReposE_raises, fun _ _ => ⟨rfl, rfl, rfl⟩,
    Extract.mergeServers_single_update⟩

/-- Witness for the amended C2 at concrete entries. -/
theorem c2_amended_witness :
    Daily.mergeReposE [("srv", c2old)] [("kw", [c2new])] =
      Except.error Daily.PyError.typeError ∧
    ((Daily.mergeOne c2old c2new).description = c2old.description ∧
      (Daily.mergeOne c2old c2new).html_url = c2old.html_url ∧
      (Daily.mergeOne c2old c2new).readme = c2old.readme) ∧
    Extract.mergeServers [c2sOld] [c2sNew] =
      [c2sOld].map (fun e => if e.name = c2sNew.name then c2sNew else e) :=
  ⟨c2_amended.1 [("srv", c2old)] [("kw", [c2new])] (by decide),
    c2_amended.2.1 c2old c2new,
    c2_amended.2.2 [c2sOld] c2sNew (by decide) (by decide)⟩

/-- Entry used as the prior side of the merged-name inputs. -/
def wOld : Daily.RepoData :=
  { baseRepo with
    keywords := ["alpha"]
    emojis := ['x']
    techstack := ["python"]
    stars := 3
    forks := 9 }

/-- Entry used as the incoming side of the merged-name inputs. -/
def wNew : Daily.RepoData :=
  { baseRepo with
    keywords := ["beta"]
    emojis := ['y']
    techstack := ["go"]
    stars := 7
    forks := 2 }

/-- C3: at the claimed input (the name srv present in both the prior
snapshot and the harvest) the faithful embedding of merge_repos raises
TypeError, so no merged entry is produced at all; the reconciliation
text of lines 542-566, embedded as mergeOne and unreachable in the
source for any entry, would give exactly the claimed duplicate-free
unions for keywords, the marker character set and techstack. -/
theorem c3_sets_union :
    Daily.mergeReposE [("srv", wOld)] [("kw", [wNew])] =
      Except.error Daily.PyError.typeError ∧
    (∀ o r : Daily.RepoData,
      (Daily.mergeOne o r).keywords.toFinset =
        o.keywords.toFinset ∪ r.keywords.toFinset ∧
      (Daily.mergeOne o r).keywords.Nodup ∧
      (Daily.mergeOne o r).emojis.toFinset = o.emojis.toFinset ∪ r.emojis.toFinset ∧
      (Daily.mergeOne o r).emojis.Nodup ∧
      (Daily.mergeOne o r).techstack.toFinset =
        o.techstack.toFinset ∪ r.techstack.toFinset ∧
      (Daily.mergeOne o r).techstack.Nodup) := by
  refine ⟨rfl, ?_⟩
  intro o r
  refine ⟨?_, ?_, ?_, ?_, ?_, ?_⟩
  · ext x
    simp [Daily.mergeOne, List.mem_dedup]
  · simp [Daily.mergeOne, List.nodup_dedup]
  · ext x
    simp [Daily.mergeOne, List.mem_dedup]
  · simp [Daily.mergeOne, List.nodup_dedup]
  · ext x
    simp [Daily.mergeOne, List.mem_dedup]
  · simp [Daily.mergeOne, List.nodup_dedup]

/-- C4: at the claimed input the faithful embedding of merge_repos
raises TypeError before the counter update at lines 550-551 runs, so no
merged entry with max counters is produced; the reconciliation text,
embedded as mergeOne and unreachable in the source for any entry, would
set stars and forks to max(old, new), hence at least either side. -/
theorem c4_counters_max :
    Daily.mergeReposE [("srv", wOld)] [("kw", [wNew])] =
      Except.error Daily.PyError.typeError ∧
    (∀ o r : Daily.RepoData,
      (Daily.mergeOne o r).stars = max o.stars r.stars ∧
      (Daily.mergeOne o r).forks = max o.forks r.forks ∧
      o.stars ≤ (Daily.mergeOne o r).stars ∧
      r.stars ≤ (Daily.mergeOne o r).stars) :=
  ⟨rfl, fun o r =>
    ⟨rfl, rfl, Nat.le_max_left o.stars r.stars, Nat.le_max_right o.stars r.stars⟩⟩

/-- C5 counterexample: the keyword set satisfies the rules at positions 5
(coding_agent) and 6 (command_line) of the ordered list, position 5 being
the earlier of the two, yet the classifier does not return the label of
position 5, because the still earlier rule at position 4 is also
satisfied. -/
theorem c5_counterexample :
    ((Daily.categoryRules.get ⟨5, by decide⟩).1 ["code", "agent", "cli"] [] = true) ∧
    ((Daily.categoryRules.get ⟨6, by decide⟩).1 ["code", "agent", "cli"] [] = true) ∧
    Daily.assign_category ["code", "agent", "cli"] [] ≠
      (Daily.categoryRules.get ⟨5, by decide⟩).2 := by
  decide

/-- C5 as amended: when the input satisfies the rules at positions i and
j with i earlier, the classifier returns the label of the earliest
satisfied rule, whose position is at most i and before which every rule
is unsatisfied; the position j never determines the outcome. -/
theorem c5_first_match :
    ∀ (ks : List String) (es : List Char) (i j : Nat)
      (hj : j < Daily.categoryRules.length) (hij : i < j),
      (Daily.categoryRules.get ⟨i, lt_trans hij hj⟩).1 ks es = true →
      (Daily.categoryRules.get ⟨j, hj⟩).1 ks es = true →
      ∃ k, ∃ hk : k < Daily.categoryRules.length, k ≤ i ∧
        (Daily.categoryRules.get ⟨k, hk⟩).1 ks es = true ∧
        (∀ m, ∀ hm : m < Daily.categoryRules.length, m < k →
          (Daily.categoryRules.get ⟨m, hm⟩).1 ks es = false) ∧
        Daily.assign_category ks es = (Daily.categoryRules.get ⟨k, hk⟩).2 := by
  intro ks es i j hj hij hsi _
  obtain ⟨k, hk, hle, hs, hmin, heq⟩ :=
    Daily.firstLabel_first_sat Daily.categoryRules ks es i (lt_trans hij hj) hsi
  refine ⟨k, hk, hle, hs, hmin, ?_⟩
  by_cases hg : (ks.isEmpty && es.isEmpty) = true
  · exfalso
    have hks : ks = [] := by
      cases ks
      · rfl
      · simp [List.isEmpty] at hg
    have hes : es = [] := by
      cases es
      · rfl
      · subst hks
        simp [List.isEmpty] at hg
    subst hks
    subst hes
    have hfalse := Daily.categoryRules_false_on_empty (Daily.categoryRules.get ⟨k, hk⟩)
      (Daily.categoryRules.get_mem k hk)
    rw [hs] at hfalse
    exact Bool.noConfusion hfalse
  · unfold Daily.assign_category
    rw [if_neg hg]
    exact heq

/-- Witness for the amended C5 at the counterexample input. -/
theorem c5_witness :
    ∃ k, ∃ hk : k < Daily.categoryRules.length, k ≤ 5 ∧
      (Daily.categoryRules.get ⟨k, hk⟩).1 ["code", "agent", "cli"] [] = true ∧
      (∀ m, ∀ hm : m < Daily.categoryRules.length, m < k →
        (Daily.categoryRules.get ⟨m, hm⟩).1 ["code", "agent", "cli"] [] = false) ∧
      Daily.assign_category ["code", "agent", "cli"] [] =
        (Daily.categoryRules.get ⟨k, hk⟩).2 :=
  c5_first_match ["code", "agent", "cli"] [] 5 6 (by decide) (by decide) (by decide)
    (by decide)

/-- Entry absent from the harvest, carried forward by C6. -/
def fooRepo : Daily.RepoData := { baseRepo with
  name := "foo"
  stars := 42 }

/-- Harvested entry with a different name. -/
def barRepo : Daily.RepoData := { baseRepo with
  name := "bar" }

/-- Old server absent from the new harvest. -/
def fooS : Extract.Server := { baseS with
  name := "foo"
  stars := 42 }

/-- New server with a different name. -/
def barS : Extract.Server := { baseS with
  name := "bar" }

/-- Carry-forward in merge_servers: an old server whose name is absent
from the news list is contained unchanged in the output. -/
theorem Extract.mergeServers_mem_of_absent (olds news : List Extract.Server)
    (e : Extract.Server) (he : e ∈ olds)
    (hnodup : (olds.map Extract.Server.name).Nodup)
    (hnames : ∀ n ∈ news, n.name ≠ e.name) : e ∈ Extract.mergeServers olds news := by
  unfold Extract.mergeServers
  have hd : (e.name, e) ∈ Extract.toDictS olds := by
    rw [Extract.toDictS_of_nodup olds hnodup]
    exact List.mem_map.mpr ⟨e, he, rfl⟩
  have hm := Extract.mem_foldl_stepS news (Extract.toDictS olds) e.name e hd hnames
  exact List.mem_map.mpr ⟨(e.name, e), hm, rfl⟩

/-- C6: the scenario of the claim crashes merge_repos: with the prior
entry foo (42 stars) and a harvest carrying any entry, the faithful
embedding raises TypeError and no output snapshot exists to carry foo
into; with an entry-free harvest the prior snapshot is returned
unchanged; merge_servers does carry the absent old server forward
unchanged, as the claim states. -/
theorem c6_carry_forward :
    fooRepo.stars = 42 ∧
    Daily.mergeReposE [("foo", fooRepo)] [("kw", [barRepo])] =
      Except.error Daily.PyError.typeError ∧
    (∀ old : List (String × Daily.RepoData), Daily.mergeReposE old [] = Except.ok old) ∧
    fooS ∈ Extract.mergeServers [fooS] [barS] ∧ fooS.stars = 42 := by
  refine ⟨rfl, rfl, fun old => rfl, ?_, rfl⟩
  exact Extract.mergeServers_mem_of_absent [fooS] [barS] fooS (by decide) (by decide)
    (by decide)

/-- C7: every keyword returned by the daily extractor is a non-empty
string over the letter, digit and hyphen class (lowercase because the
description is lowercased first), the returned list is duplicate-free, an
empty description yields the empty list, and the scenario description
yields exactly the five claimed tokens, including the stop word a. -/
theorem c7_keyword_extraction :
    (∀ (d t : String), t ∈ Daily.extract_keywords d →
      t ≠ "" ∧ ∀ c ∈ t.data, tokChar c = true) ∧
    (∀ d : String, (Daily.extract_keywords d).Nodup) ∧
    Daily.extract_keywords "" = [] ∧
    (Daily.extract_keywords "A Python MCP database gateway").toFinset =
      {"a", "python", "mcp", "database", "gateway"} := by
  refine ⟨Daily.extract_keywords_shape, ?_, rfl, by decide⟩
  intro d
  unfold Daily.extract_keywords
  split
  · exact List.nodup_nil
  · exact List.nodup_dedup _

/-- Witness for C7 at a concrete description and token. -/
theorem c7_witness :
    ("python" : String) ≠ "" ∧ ∀ c ∈ ("python" : String).data, tokChar c = true :=
  c7_keyword_extraction.1 "A Python MCP database gateway" "python" (by decide)

/-- C8: on empty inputs the daily classifier returns the default label
general through its early guard, any input satisfying no rule also yields
general as an ordinary outcome, and the manual-insert classifier returns
its default label other on empty inputs. -/
theorem c8_default_total :
    Daily.assign_category [] [] = "general" ∧
    (∀ (ks : List String) (es : List Char),
      (∀ r ∈ Daily.categoryRules, r.1 ks es = false) →
      Daily.assign_category ks es = "general") ∧
    ManualInsert.assign_category "" "" = "other" := by
  refine ⟨rfl, ?_, by decide⟩
  intro ks es h
  unfold Daily.assign_category
  split
  · rfl
  · exact Daily.firstLabel_of_all_false ks es Daily.categoryRules h

/-- Witness for C8: a keyword matching no rule still yields the default
label. -/
theorem c8_witness : Daily.assign_category ["zzz"] [] = "general" :=
  c8_default_total.2.1 ["zzz"] [] (by decide)

/-- C9: merging any prior snapshot with an empty harvest returns the
snapshot unchanged, in merge_repos for every association list and in
merge_servers for every old list with unique names. -/
theorem c9_empty_harvest :
    (∀ old : List (String × Daily.RepoData), Daily.mergeRepos old [] = old) ∧
    (∀ olds : List Extract.Server, (olds.map Extract.Server.name).Nodup →
      Extract.mergeServers olds [] = olds) := by
  constructor
  · intro old
    rfl
  · intro olds h
    unfold Extract.mergeServers
    rw [List.foldl_nil, Extract.toDictS_of_nodup olds h, List.map_map]
    have hcomp : (Prod.snd ∘ fun e : Extract.Server => (e.name, e)) = id := rfl
    rw [hcomp, List.map_id]

/-- Witness for C9 at concrete snapshots. -/
theorem c9_witness :
    Daily.mergeRepos [("foo", fooRepo)] [] = [("foo", fooRepo)] ∧
    Extract.mergeServers [fooS] [] = [fooS] :=
  ⟨c9_empty_harvest.1 [("foo", fooRepo)], c9_empty_harvest.2 [fooS] (by decide)⟩

/-- C10: every keyword returned by the manual-insert extractor has length
strictly greater than two and is not a stop word, so the two-letter
technology tokens go, js, ts and ai can never appear, for any input. -/
theorem c10_strict_keywords :
    ∀ (text w : String), w ∈ ManualInsert.extract_keywords text →
      2 < w.length ∧ w ∉ ManualInsert.commonWords ∧
      w ≠ "go" ∧ w ≠ "js" ∧ w ≠ "ts" ∧ w ≠ "ai" := by
  intro text w hw
  unfold ManualInsert.extract_keywords at hw
  have hw2 := List.mem_dedup.mp hw
  have hp := (List.mem_filter.mp hw2).2
  have hcomb : w ∉ ManualInsert.commonWords ∧ 2 < w.length := by
    constructor
    · intro hmem
      rw [decide_eq_true hmem] at hp
      simp at hp
    · have h2 : decide (2 < w.length) = true := by
        cases h2 : decide (2 < w.length)
        · rw [h2] at hp
          simp at hp
        · rfl
      exact of_decide_eq_true h2
  refine ⟨hcomb.2, hcomb.1, ?_, ?_, ?_, ?_⟩
  all_goals
    intro h
    subst h
    exact absurd hcomb.2 (by decide)

/-- Witness for C10 at a concrete text and token. -/
theorem c10_witness :
    2 < ("python" : String).length ∧ ("python" : String) ∉ ManualInsert.commonWords ∧
      ("python" : String) ≠ "go" ∧ ("python" : String) ≠ "js" ∧
      ("python" : String) ≠ "ts" ∧ ("python" : String) ≠ "ai" :=
  c10_strict_keywords "python database" "python" (by decide)
